import Mathlib

/-!
Verification of the CSV wizard application (`app.py`): a shallow embedding of
its table store, field typer, value parser, persistence layer and wizard state
machine, together with theorems checking the specification's claims.

Values in a table cell are modelled by `Val`: pandas/Python booleans, integers,
floats (finite values modelled as rationals, plus the infinities; NaN is
identified with null), strings, and the null/NaN value.
-/

namespace Rawand

/-- A Python float: a finite value (a dyadic rational, modelled as a
rational) or one of the two infinities. The float NaN is identified with the
null value `Val.vNull`, as pandas does. -/
inductive PyFloat : Type where
  | fin (q : Rat)
  | inf
  | ninf
deriving DecidableEq, Repr

inductive Val : Type where
  | vBool (b : Bool)
  | vInt (n : Int)
  | vFloat (x : PyFloat)
  | vStr (s : String)
  | vNull
deriving DecidableEq, Repr

open Val

/-- A data frame, column-major: a header of column names and, for each column,
the list of its cell values (row order preserved inside each column). -/
structure Table where
  header : List String
  columns : List (List Val)
deriving DecidableEq, Repr

/-! ### Digit strings

Machinery for rendering and parsing the decimal digit strings that
`df.to_csv` writes and `pd.read_csv` re-parses. -/

/-- The character for a decimal digit. -/
def digitChar (d : Nat) : Char :=
  match d with
  | 0 => '0' | 1 => '1' | 2 => '2' | 3 => '3' | 4 => '4'
  | 5 => '5' | 6 => '6' | 7 => '7' | 8 => '8' | _ => '9'

/-- Is `c` one of the characters `'0'`–`'9'`? -/
def isDigitChar (c : Char) : Bool :=
  48 ≤ c.toNat && c.toNat ≤ 57

/-- Big-endian digit characters of a natural number (`"0"` for zero). -/
def natChars (n : Nat) : List Char :=
  if n = 0 then ['0'] else ((Nat.digits 10 n).map digitChar).reverse

/-- Value of a big-endian list of digit characters. -/
def digitsVal (l : List Char) : Nat :=
  l.foldl (fun a c => a * 10 + (c.toNat - 48)) 0

/-- Strip an optional leading sign, reporting whether it was a minus. -/
def parseSign (l : List Char) : Bool × List Char :=
  match l with
  | '-' :: rest => (true, rest)
  | '+' :: rest => (false, rest)
  | l => (false, l)

/-- A character allowed inside a digit group: a digit or an underscore. -/
def isGroupChar (c : Char) : Bool := isDigitChar c || c == '_'

/-- A valid digit group: nonempty digits with single underscores strictly
between digits (`1_000` is valid, `_1`, `1_` and `1__0` are not). -/
def validGroup (g : List Char) : Bool :=
  !g.isEmpty && g.all isGroupChar
    && !(g.head? == some '_') && !(g.getLast? == some '_')
    && (g.zip g.tail).all (fun p => !(p.1 == '_' && p.2 == '_'))

/-- The digits of a group, with the grouping underscores removed. -/
def cleanGroup (g : List Char) : List Char := g.filter (fun c => c != '_')

/-- Decimal rendering of an integer, as written by `to_csv`. -/
def intStr (n : Int) : String :=
  ⟨(if n < 0 then ['-'] else []) ++ natChars n.natAbs⟩

/-- Parse a character list as an integer: optional sign, then a digit
group. -/
def parseIntChars (l : List Char) : Option Int :=
  if validGroup (parseSign l).2 then
    some (if (parseSign l).1 then -(digitsVal (cleanGroup (parseSign l).2) : Int)
      else (digitsVal (cleanGroup (parseSign l).2) : Int))
  else none

/-- Parse a field as an integer (Python `int(str)` after stripping). -/
def parseIntTok (s : String) : Option Int := parseIntChars s.data

/-- The least exponent `k ≤ d` with `d ∣ 10 ^ k`, if any. -/
def decExp (d : Nat) : Option Nat :=
  (List.range (d + 1)).find? (fun k => 10 ^ k % d == 0)

/-- Digits of `m`, left-padded with zeros to at least `k + 1` characters. -/
def padDigits (m k : Nat) : List Char :=
  List.replicate (k + 1 - (natChars m).length) '0' ++ natChars m

/-- A digit list with a decimal point inserted `k` places from the right. -/
def pointed (ds : List Char) (k : Nat) : List Char :=
  ds.take (ds.length - k) ++ '.' :: ds.drop (ds.length - k)

/-- Decimal rendering of `num / den` with exactly `k ≥ 1` fraction digits. -/
def floatStrAux (num : Int) (den k : Nat) : String :=
  ⟨(if num < 0 then ['-'] else []) ++
    pointed (padDigits (num.natAbs * (10 ^ k / den)) k) k⟩

/-- Decimal rendering of a rational, as `repr` of the Python float writes it. -/
def floatStr (q : Rat) : String :=
  match decExp q.den with
  | some k0 => floatStrAux q.num q.den (max k0 1)
  | none => "0.0"

/-- Decimal rendering of a Python float, as `repr` writes it. -/
def pyFloatStr : PyFloat → String
  | .fin q => floatStr q
  | .inf => "inf"
  | .ninf => "-inf"

/-- ASCII lowercasing, for the case-insensitive `inf`/`nan` spellings. -/
def lowerAscii (c : Char) : Char :=
  if 65 ≤ c.toNat && c.toNat ≤ 90 then Char.ofNat (c.toNat + 32) else c

/-- Python float infinity spellings (after the sign), case-insensitive. -/
def isInfSpelling (l : List Char) : Bool :=
  l.map lowerAscii == "inf".data || l.map lowerAscii == "infinity".data

/-- Python float NaN spelling (after the sign), case-insensitive. -/
def isNanSpelling (l : List Char) : Bool :=
  l.map lowerAscii == "nan".data

/-- An optional exponent suffix: nothing at all, or `e`/`E` with a signed
digit group. -/
def parseExpPart (l : List Char) : Option Int :=
  match l with
  | [] => some 0
  | 'e' :: rest => parseIntChars rest
  | 'E' :: rest => parseIntChars rest
  | _ => none

/-- The rational denoted by digits `ds`, `fracLen` of them after the decimal
point, scaled by `10 ^ exp`. -/
def decValue (ds : List Char) (fracLen : Nat) (exp : Int) : Rat :=
  if 0 ≤ exp - (fracLen : Int) then
    ((digitsVal ds * 10 ^ (exp - (fracLen : Int)).toNat : Nat) : Rat)
  else (digitsVal ds : Rat) / ((10 ^ ((fracLen : Int) - exp).toNat : Nat) : Rat)

/-- The fractional-part arm of decimal parsing: `g1` is the integer-part
group, `r2` everything after the decimal point. -/
def parseDotArm (g1 r2 : List Char) : Option Rat :=
  if (g1.isEmpty || validGroup g1)
      && ((r2.takeWhile isGroupChar).isEmpty || validGroup (r2.takeWhile isGroupChar))
      && !(g1.isEmpty && (r2.takeWhile isGroupChar).isEmpty) then
    match parseExpPart (r2.dropWhile isGroupChar) with
    | some e =>
      some (decValue (cleanGroup g1 ++ cleanGroup (r2.takeWhile isGroupChar))
        (cleanGroup (r2.takeWhile isGroupChar)).length e)
    | none => none
  else none

/-- The exponent arm of decimal parsing, for a literal without a point. -/
def parseEArm (g1 r2 : List Char) : Option Rat :=
  if validGroup g1 then
    match parseIntChars r2 with
    | some e => some (decValue (cleanGroup g1) 0 e)
    | none => none
  else none

/-- An unsigned decimal literal: a digit group, an optional point with an
optional further group (at least one of the two nonempty), and an optional
exponent. Underscore grouping is allowed inside every group. -/
def parseDecimal (l : List Char) : Option Rat :=
  match l.dropWhile isGroupChar with
  | [] =>
    if validGroup (l.takeWhile isGroupChar) then
      some (decValue (cleanGroup (l.takeWhile isGroupChar)) 0 0)
    else none
  | '.' :: r2 => parseDotArm (l.takeWhile isGroupChar) r2
  | 'e' :: r2 => parseEArm (l.takeWhile isGroupChar) r2
  | 'E' :: r2 => parseEArm (l.takeWhile isGroupChar) r2
  | _ => none

/-- The result of parsing a float field: a numeric value or NaN. -/
inductive FloatTok : Type where
  | num (x : PyFloat)
  | nan
deriving DecidableEq, Repr

/-- The signed part of float parsing, after the sign has been stripped. -/
def parseFloatCore (neg : Bool) (body : List Char) : Option FloatTok :=
  if isInfSpelling body then some (.num (if neg then .ninf else .inf))
  else if isNanSpelling body then some .nan
  else
    match parseDecimal body with
    | some q => some (.num (.fin (if neg then -q else q)))
    | none => none

/-- Parse a field as a float, as Python `float(str)` after stripping — and as
`pd.read_csv` and `pd.to_numeric` read numeric fields: optional sign, then a
decimal literal with optional fraction, underscore grouping and exponent, or
an `inf`/`infinity`/`nan` spelling (case-insensitive). -/
def parseFloatTok (s : String) : Option FloatTok :=
  parseFloatCore (parseSign s.data).1 (parseSign s.data).2

/-- The pandas default NA tokens (`STR_NA_VALUES`); the additional
`NA_VALUES` of app.py are all already among them. -/
def naTokens : List String :=
  ["", "#N/A", "#N/A N/A", "#NA", "-1.#IND", "-1.#QNAN", "-NaN", "-nan",
    "1.#IND", "1.#QNAN", "<NA>", "N/A", "NA", "NULL", "NaN", "None",
    "n/a", "nan", "null"]

/-- Is this field a recognized null token? -/
def isNA (s : String) : Bool := naTokens.any (fun t => s == t)

def isIntTok (s : String) : Bool := (parseIntTok s).isSome
def isFloatTok (s : String) : Bool := (parseFloatTok s).isSome

/-- The boolean literals `read_csv` recognizes. -/
def isBoolTok (s : String) : Bool :=
  s == "True" || s == "TRUE" || s == "False" || s == "FALSE"

/-- How `to_csv` renders one cell (`NaN` becomes the empty field). -/
def writeField : Val → String
  | vBool b => if b then "True" else "False"
  | vInt n => intStr n
  | vFloat x => pyFloatStr x
  | vStr s => s
  | vNull => ""

/-- One field of a float-typed column: a null token reads as NaN, otherwise
the parsed float (a `nan` spelling is also NaN). -/
def readFloatField (s : String) : Val :=
  if isNA s then vNull
  else
    match parseFloatTok s with
    | some (.num x) => vFloat x
    | some .nan => vNull
    | none => vNull

/-- How `read_csv` types one column: integer when every field is an integer
literal; float when every field is numeric or null (NaN is a float); boolean
when every field is a boolean literal; otherwise strings with null tokens
read as null. -/
def readCol (fields : List String) : List Val :=
  if fields.all isIntTok then
    fields.map (fun s => vInt ((parseIntTok s).getD 0))
  else if fields.all (fun s => isNA s || isFloatTok s) then
    fields.map readFloatField
  else if fields.all isBoolTok then
    fields.map (fun s => vBool (s == "True" || s == "TRUE"))
  else
    fields.map (fun s => if isNA s then vNull else vStr s)

structure Csv where
  header : List String
  fieldCols : List (List String)
deriving DecidableEq, Repr

/-- `df.to_csv(path, index=False)`: serialize header and every cell. -/
def to_csv (t : Table) : Csv :=
  ⟨t.header, t.columns.map (List.map writeField)⟩

/-- `pd.read_csv(path, na_values=NA_VALUES, keep_default_na=True)`. -/
def read_csv (c : Csv) : Table :=
  ⟨c.header, c.fieldCols.map readCol⟩

def isVInt : Val → Bool
  | vInt _ => true
  | _ => false

def isVBool : Val → Bool
  | vBool _ => true
  | _ => false

def isVFloat : Val → Bool
  | vFloat _ => true
  | _ => false

def isVNull : Val → Bool
  | vNull => true
  | _ => false

inductive FileContent : Type where
  | csvFile (c : Csv)
  | malformed
deriving DecidableEq, Repr

def FS : Type := String → Option FileContent

def fsWrite (fs : FS) (path : String) (fc : FileContent) : FS :=
  fun p => if p = path then some fc else fs p

/-- `os.replace(src, dst)`: atomically rename `src` over `dst`. -/
def os_replace (fs : FS) (src dst : String) : FS :=
  fun p => if p = dst then fs src else if p = src then none else fs p

/-- `df.to_csv(path, index=False)` as a filesystem action. -/
def to_csv_write (t : Table) (path : String) (fs : FS) : FS :=
  fsWrite fs path (.csvFile (to_csv t))

/-- `save_csv_atomic(df, path)`: write the serialized table to the sibling
`path + ".tmp"`, then atomically replace `path` with it. -/
def save_csv_atomic (t : Table) (path : String) (fs : FS) : FS :=
  os_replace (to_csv_write t (path ++ ".tmp") fs) (path ++ ".tmp") path

/-- Attempt to parse a file (`pd.read_csv` raises on malformed input). -/
def tryParseCsv : FileContent → Option Csv
  | .csvFile c => some c
  | .malformed => none

def emptyTable : Table := ⟨[], []⟩

/-- `load_csv(path)`: missing file → create an empty file and return an empty
table; parse failure → an empty table; otherwise the parsed table. Returns
the table together with the possibly changed filesystem. -/
def load_csv (path : String) (fs : FS) : Table × FS :=
  match fs path with
  | none => (emptyTable, fsWrite fs path (.csvFile (to_csv emptyTable)))
  | some fc =>
    match tryParseCsv fc with
    | some c => (read_csv c, fs)
    | none => (emptyTable, fs)

/-! ### Value parsing (`parse_value`) -/

/-- Python's `str.strip()`: drop whitespace from both ends. -/
def pyStrip (s : String) : String :=
  ⟨((s.data.dropWhile Char.isWhitespace).reverse.dropWhile Char.isWhitespace).reverse⟩

/-- Python's `str(value)`. -/
def pyStr (v : Val) : String :=
  match v with
  | vStr s => s
  | vBool b => if b then "True" else "False"
  | vInt n => intStr n
  | vFloat x => pyFloatStr x
  | vNull => "None"

/-- Python's `bool(value)` (truthiness). -/
def pyBool (v : Val) : Bool :=
  match v with
  | vBool b => b
  | vStr s => !(s == "")
  | vInt n => !(n == 0)
  | vFloat x => !(x == .fin 0)
  | vNull => false

/-- `parse_value(value, kind)` from app.py lines 47–64. -/
def parse_value (value : Val) (kind : String) : Val :=
  if kind == "bool" then vBool (pyBool value)
  else if kind == "int" then
    if value == vNull || pyStrip (pyStr value) == "" then vNull
    else
      match parseIntTok (pyStrip (pyStr value)) with
      | some n => vInt n
      | none => vNull
  else if kind == "float" then
    if value == vNull || pyStrip (pyStr value) == "" then vNull
    else
      match parseFloatTok (pyStrip (pyStr value)) with
      | some (.num x) => vFloat x
      | some .nan => vNull
      | none => vNull
  else if value == vNull then vStr "" else value

/-! ### Column kind inference (`infer_input_type`) -/

/-- `series.dropna()`. -/
def dropna (s : List Val) : List Val := s.filter (fun v => !isVNull v)

def is_bool_dtype (s : List Val) : Bool := s.all isVBool

def is_integer_dtype (s : List Val) : Bool := s.all isVInt

/-- NaN is itself a float, so a column of floats and nulls has float dtype. -/
def is_float_dtype (s : List Val) : Bool := s.all (fun v => isVFloat v || isVNull v)

/-- Can `pd.to_numeric` coerce this value? -/
def numericCoercible (v : Val) : Bool :=
  match v with
  | vStr s => isFloatTok s
  | _ => true

def to_numeric_ok (s : List Val) : Bool := s.all numericCoercible

/-- `infer_input_type(series)` from app.py lines 31–45. -/
def infer_input_type (s : List Val) : String :=
  if s.isEmpty then "text"
  else if is_bool_dtype s then "bool"
  else if is_integer_dtype s then "int"
  else if is_float_dtype s then "float"
  else if to_numeric_ok (dropna s) then "float"
  else "text"

/-! ### Wizard state machine -/

inductive Action : Type where
  | back | next | save | reset | jumpFirst | jumpLast | stay
deriving DecidableEq, Repr

/-- The draft row: `st.session_state.temp_row`, a mapping from column name to
the raw value entered so far. -/
def Draft : Type := String → Option Val

def emptyDraft : Draft := fun _ => none

def setDraft (d : Draft) (c : String) (v : Val) : Draft :=
  fun c2 => if c2 = c then some v else d c2

/-- The session state: wizard position, draft row, and in-memory table. -/
structure AppState where
  wizard_idx : Int
  temp_row : Draft
  df : Table

def colValues (t : Table) (c : String) : List Val :=
  match t.header.findIdx? (fun h => h == c) with
  | some i => t.columns.getD i []
  | none => []

/-- The kind of a column, recomputed from the table each cycle
(app.py line 116). -/
def kindsOf (t : Table) (c : String) : String := infer_input_type (colValues t c)

/-- `cols[idx]` (app.py line 119). -/
def currentCol (st : AppState) : String :=
  st.df.header.getD st.wizard_idx.toNat ""

/-- Seeding on entry (app.py lines 126–131): a column not yet in the draft is
seeded with `False` for boolean kind and `""` otherwise. -/
def seedDraft (st : AppState) : Draft :=
  match st.temp_row (currentCol st) with
  | some _ => st.temp_row
  | none =>
      setDraft st.temp_row (currentCol st)
        (if kindsOf st.df (currentCol st) == "bool" then vBool false else vStr "")

/-- The draft after one render cycle: seeding, then storing the widget value
for the current column (app.py line 155). -/
def draftAfter (st : AppState) (v : Val) : Draft :=
  setDraft (seedDraft st) (currentCol st) v

/-- The finalized row (app.py lines 171–173): every column's draft value,
defaulting to `""`, parsed by the column's kind. -/
def finalRowOf (t : Table) (d : Draft) : List Val :=
  t.header.map (fun c => parse_value ((d c).getD (vStr "")) (kindsOf t c))

/-- `pd.concat([df, pd.DataFrame([final_row])], ignore_index=True)`:
append one row. -/
def appendRow (t : Table) (row : List Val) : Table :=
  ⟨t.header, List.zipWith (fun col v => col ++ [v]) t.columns row⟩

/-- One request/response cycle of the wizard at a pressed button: the script
seeds the draft, stores the entered value `v`, then runs the button logic
(app.py lines 157–197). -/
def runStep (v : Val) (a : Action) (st : AppState) : AppState :=
  match a with
  | .back =>
      if st.wizard_idx > 0 then ⟨st.wizard_idx - 1, draftAfter st v, st.df⟩
      else ⟨st.wizard_idx, draftAfter st v, st.df⟩
  | .next =>
      if st.wizard_idx < (st.df.header.length : Int) - 1 then
        ⟨st.wizard_idx + 1, draftAfter st v, st.df⟩
      else ⟨st.wizard_idx, draftAfter st v, st.df⟩
  | .save =>
      if st.wizard_idx = (st.df.header.length : Int) - 1 then
        ⟨0, emptyDraft, appendRow st.df (finalRowOf st.df (draftAfter st v))⟩
      else ⟨st.wizard_idx, draftAfter st v, st.df⟩
  | .reset => ⟨0, emptyDraft, st.df⟩
  | .jumpFirst => ⟨0, draftAfter st v, st.df⟩
  | .jumpLast => ⟨(st.df.header.length : Int) - 1, draftAfter st v, st.df⟩
  | .stay => ⟨st.wizard_idx, draftAfter st v, st.df⟩

/-- The initial session state over a loaded table. -/
def initState (t : Table) : AppState := ⟨0, emptyDraft, t⟩

/-- Run a sequence of interaction cycles from the initial state. -/
def runTrace (t : Table) (steps : List (Val × Action)) : AppState :=
  steps.foldl (fun st p => runStep p.1 p.2 st) (initState t)

/-! ### Per-kind unfoldings of `parse_value` -/

theorem parse_value_bool_def (v : Val) :
    parse_value v "bool" = vBool (pyBool v) := rfl

theorem parse_value_int_def (v : Val) :
    parse_value v "int"
      = (if v == vNull || pyStrip (pyStr v) == "" then vNull
        else
          match parseIntTok (pyStrip (pyStr v)) with
          | some n => vInt n
          | none => vNull) := rfl

theorem parse_value_float_def (v : Val) :
    parse_value v "float"
      = (if v == vNull || pyStrip (pyStr v) == "" then vNull
        else
          match parseFloatTok (pyStrip (pyStr v)) with
          | some (.num x) => vFloat x
          | some .nan => vNull
          | none => vNull) := rfl

theorem parse_value_text_def (v : Val) :
    parse_value v "text" = (if v == vNull then vStr "" else v) := rfl

/-- C5: for boolean kind the parser returns the raw boolean value itself
(`bool(value)` is the identity on booleans); in particular the boolean value
`False` parses to the boolean `false`. -/
theorem parse_bool_identity :
    (∀ b : Bool, parse_value (vBool b) "bool" = vBool b)
    ∧ parse_value (vBool false) "bool" = vBool false := by
  constructor
  · intro b
    rfl
  · rfl

/-- C4: for integer and float kinds the parser first trims the string; a
trimmed-empty or null input yields null, a string failing numeric parsing
(such as `"abc"` for integer kind) yields null, and any other input yields
the parsed number (a NaN spelling yields the NaN float, which this model
identifies with null). Python-style signs, underscore grouping, exponents
and `inf`/`nan` spellings are all accepted, e.g. `"+5"` parses to `5` and
`"1e3"` to `1000.0`. -/
theorem parse_numeric_semantics :
    (parse_value vNull "int" = vNull ∧ parse_value vNull "float" = vNull)
    ∧ (∀ s : String, pyStrip s = "" →
        parse_value (vStr s) "int" = vNull ∧ parse_value (vStr s) "float" = vNull)
    ∧ (∀ s : String, parseIntTok (pyStrip s) = none → parse_value (vStr s) "int" = vNull)
    ∧ (∀ s : String, ∀ n : Int, parseIntTok (pyStrip s) = some n →
        parse_value (vStr s) "int" = vInt n)
    ∧ (∀ s : String, parseFloatTok (pyStrip s) = none →
        parse_value (vStr s) "float" = vNull)
    ∧ (∀ s : String, ∀ x : PyFloat, parseFloatTok (pyStrip s) = some (.num x) →
        parse_value (vStr s) "float" = vFloat x)
    ∧ (∀ s : String, parseFloatTok (pyStrip s) = some .nan →
        parse_value (vStr s) "float" = vNull)
    ∧ parse_value (vStr "abc") "int" = vNull
    ∧ parse_value (vStr "+5") "int" = vInt 5
    ∧ parse_value (vStr "1e3") "float" = vFloat (.fin 1000) := by
  refine ⟨⟨rfl, rfl⟩, ?_, ?_, ?_, ?_, ?_, ?_, rfl, ?_, ?_⟩
  · intro s hs
    constructor
    · rw [parse_value_int_def]
      have hc : (vStr s == vNull || pyStrip (pyStr (vStr s)) == "") = true := by
        rw [show pyStr (vStr s) = s from rfl, hs]
        rfl
      rw [hc]
      rfl
    · rw [parse_value_float_def]
      have hc : (vStr s == vNull || pyStrip (pyStr (vStr s)) == "") = true := by
        rw [show pyStr (vStr s) = s from rfl, hs]
        rfl
      rw [hc]
      rfl
  · intro s hp
    rw [parse_value_int_def, show pyStr (vStr s) = s from rfl]
    by_cases hs : pyStrip s = ""
    · rw [hs]
      rfl
    · rw [if_neg ?_, hp]
      rw [Bool.or_eq_true_iff]
      rintro (hc | hc)
      · rw [beq_iff_eq] at hc
        exact Val.noConfusion hc
      · rw [beq_iff_eq] at hc
        exact hs hc
  · intro s n hp
    have hs : ¬ pyStrip s = "" := by
      intro hcon
      rw [hcon] at hp
      rw [show parseIntTok "" = none from rfl] at hp
      exact Option.noConfusion hp
    rw [parse_value_int_def, show pyStr (vStr s) = s from rfl, if_neg ?_, hp]
    rw [Bool.or_eq_true_iff]
    rintro (hc | hc)
    · rw [beq_iff_eq] at hc
      exact Val.noConfusion hc
    · rw [beq_iff_eq] at hc
      exact hs hc
  · intro s hp
    rw [parse_value_float_def, show pyStr (vStr s) = s from rfl]
    by_cases hs : pyStrip s = ""
    · rw [hs]
      rfl
    · rw [if_neg ?_, hp]
      rw [Bool.or_eq_true_iff]
      rintro (hc | hc)
      · rw [beq_iff_eq] at hc
        exact Val.noConfusion hc
      · rw [beq_iff_eq] at hc
        exact hs hc
  · intro s x hp
    have hs : ¬ pyStrip s = "" := by
      intro hcon
      rw [hcon] at hp
      rw [show parseFloatTok "" = none from rfl] at hp
      exact Option.noConfusion hp
    rw [parse_value_float_def, show pyStr (vStr s) = s from rfl, if_neg ?_, hp]
    rw [Bool.or_eq_true_iff]
    rintro (hc | hc)
    · rw [beq_iff_eq] at hc
      exact Val.noConfusion hc
    · rw [beq_iff_eq] at hc
      exact hs hc
  · intro s hp
    have hs : ¬ pyStrip s = "" := by
      intro hcon
      rw [hcon] at hp
      rw [show parseFloatTok "" = none from rfl] at hp
      exact Option.noConfusion hp
    rw [parse_value_float_def, show pyStr (vStr s) = s from rfl, if_neg ?_, hp]
    rw [Bool.or_eq_true_iff]
    rintro (hc | hc)
    · rw [beq_iff_eq] at hc
      exact Val.noConfusion hc
    · rw [beq_iff_eq] at hc
      exact hs hc
  · decide
  · decide

/-- C4 witness: concrete inputs exercising every clause, including a signed
integer, underscore grouping, an exponent float and an infinity. -/
theorem parse_numeric_semantics_witness :
    parse_value (vStr "  ") "int" = vNull
    ∧ parse_value (vStr " 42 ") "int" = vInt 42
    ∧ parse_value (vStr "x1") "int" = vNull
    ∧ parse_value (vStr "1_0") "int" = vInt 10
    ∧ parse_value (vStr " 7 ") "float" = vFloat (.fin 7)
    ∧ parse_value (vStr "inf") "float" = vFloat .inf
    ∧ parse_value (vStr "x2") "float" = vNull
    ∧ parse_value (vStr "nan") "float" = vNull := by
  have h := parse_numeric_semantics
  exact ⟨(h.2.1 "  " (by decide)).1,
    h.2.2.2.1 " 42 " 42 (by decide),
    h.2.2.1 "x1" (by decide),
    h.2.2.2.1 "1_0" 10 (by decide),
    h.2.2.2.2.2.1 " 7 " (.fin 7) (by decide),
    h.2.2.2.2.2.1 "inf" .inf (by decide),
    h.2.2.2.2.1 "x2" (by decide),
    h.2.2.2.2.2.2.1 "nan" (by decide)⟩

theorem tmp_ne_path (path : String) : path ++ ".tmp" ≠ path := by
  intro h
  have hlen := congrArg String.length h
  rw [String.length_append] at hlen
  rw [show (".tmp" : String).length = 4 from rfl] at hlen
  omega

/-- C7: saving writes the serialized table to the sibling temporary file and
then atomically renames it over the target, so the target is never observable
partially written: while the temporary is being written the target still holds
its complete old contents, and after the rename it holds the complete new
serialized contents (and the temporary is gone). -/
theorem save_atomic_never_partial (t : Table) (path : String) (fs : FS) :
    (to_csv_write t (path ++ ".tmp") fs) path = fs path
    ∧ save_csv_atomic t path fs path = some (.csvFile (to_csv t))
    ∧ save_csv_atomic t path fs (path ++ ".tmp") = none := by
  have hne : path ≠ path ++ ".tmp" := fun h => tmp_ne_path path h.symm
  refine ⟨?_, ?_, ?_⟩
  · unfold to_csv_write fsWrite
    rw [if_neg hne]
  · unfold save_csv_atomic os_replace to_csv_write fsWrite
    rw [if_pos rfl, if_pos rfl]
  · unfold save_csv_atomic os_replace
    rw [if_neg (tmp_ne_path path), if_pos rfl]

/-- C8: loading returns the parsed table when the file exists and parses;
creates an empty file and returns an empty table when the file is missing;
and returns an empty table instead of raising when parsing fails. -/
theorem load_csv_semantics (path : String) (fs : FS) :
    (fs path = none →
      (load_csv path fs).1 = emptyTable
      ∧ (load_csv path fs).2 path = some (.csvFile (to_csv emptyTable)))
    ∧ (fs path = some .malformed → load_csv path fs = (emptyTable, fs))
    ∧ (∀ c : Csv, fs path = some (.csvFile c) → load_csv path fs = (read_csv c, fs)) := by
  refine ⟨?_, ?_, ?_⟩
  · intro h
    unfold load_csv
    rw [h]
    refine ⟨rfl, ?_⟩
    show (if path = path then some (FileContent.csvFile (to_csv emptyTable)) else fs path)
      = some (FileContent.csvFile (to_csv emptyTable))
    rw [if_pos rfl]
  · intro h
    unfold load_csv
    rw [h]
    rfl
  · intro c h
    unfold load_csv
    rw [h]
    rfl

/-- C8 witness: the three branches at concrete filesystems. -/
theorem load_csv_semantics_witness :
    ((load_csv "a.csv" (fun _ => none)).1 = emptyTable
      ∧ (load_csv "a.csv" (fun _ => none)).2 "a.csv"
          = some (.csvFile (to_csv emptyTable)))
    ∧ load_csv "a.csv" (fun _ => some .malformed)
        = (emptyTable, fun _ => some .malformed)
    ∧ load_csv "a.csv" (fun _ => some (.csvFile ⟨["A"], [["1"]]⟩))
        = (read_csv ⟨["A"], [["1"]]⟩, fun _ => some (.csvFile ⟨["A"], [["1"]]⟩)) :=
  ⟨(load_csv_semantics "a.csv" (fun _ => none)).1 rfl,
    (load_csv_semantics "a.csv" (fun _ => some .malformed)).2.1 rfl,
    (load_csv_semantics "a.csv" (fun _ => some (.csvFile ⟨["A"], [["1"]]⟩))).2.2
      ⟨["A"], [["1"]]⟩ rfl⟩

theorem runStep_header (v : Val) (a : Action) (st : AppState) :
    (runStep v a st).df.header = st.df.header := by
  cases a <;> simp only [runStep] <;> (try split) <;> rfl

theorem runStep_idx_bound (v : Val) (a : Action) (st : AppState)
    (h0 : 0 ≤ st.wizard_idx) (h1 : st.wizard_idx < (st.df.header.length : Int)) :
    0 ≤ (runStep v a st).wizard_idx
    ∧ (runStep v a st).wizard_idx < ((runStep v a st).df.header.length : Int) := by
  rw [runStep_header v a st]
  cases a <;> simp only [runStep] <;> (try split) <;> (try dsimp only) <;> omega

theorem runTrace_idx_bound (t : Table) (h : 1 ≤ t.header.length)
    (steps : List (Val × Action)) :
    0 ≤ (runTrace t steps).wizard_idx
    ∧ (runTrace t steps).wizard_idx < ((runTrace t steps).df.header.length : Int) := by
  unfold runTrace
  have haux : ∀ (st : AppState), 0 ≤ st.wizard_idx →
      st.wizard_idx < (st.df.header.length : Int) →
      0 ≤ (steps.foldl (fun s2 p => runStep p.1 p.2 s2) st).wizard_idx
      ∧ (steps.foldl (fun s2 p => runStep p.1 p.2 s2) st).wizard_idx
          < (((steps.foldl (fun s2 p => runStep p.1 p.2 s2) st)).df.header.length : Int) := by
    induction steps with
    | nil => exact fun st h0 h1 => ⟨h0, h1⟩
    | cons p steps ih =>
      intro st h0 h1
      rw [List.foldl_cons]
      have hb := runStep_idx_bound p.1 p.2 st h0 h1
      exact ih (runStep p.1 p.2 st) hb.1 hb.2
  apply haux
  · exact le_refl 0
  · show (0 : Int) < (t.header.length : Int)
    exact_mod_cast h

/-- C1: from the initial state every transition keeps `0 ≤ index < N` for a
table with `N ≥ 1` columns; moreover Back does not decrement at index `0`
and Next does not increment at index `N - 1`. -/
theorem wizard_index_invariant (t : Table) (steps : List (Val × Action))
    (h : 1 ≤ t.header.length) :
    (0 ≤ (runTrace t steps).wizard_idx
      ∧ (runTrace t steps).wizard_idx < ((runTrace t steps).df.header.length : Int))
    ∧ (∀ st : AppState, ∀ v : Val, st.wizard_idx = 0 →
        (runStep v Action.back st).wizard_idx = 0)
    ∧ (∀ st : AppState, ∀ v : Val,
        st.wizard_idx = (st.df.header.length : Int) - 1 →
        (runStep v Action.next st).wizard_idx = (st.df.header.length : Int) - 1) := by
  refine ⟨runTrace_idx_bound t h steps, ?_, ?_⟩
  · intro st v h0
    simp only [runStep]
    rw [if_neg (by omega)]
    exact h0
  · intro st v hlast
    simp only [runStep]
    rw [if_neg (by omega)]
    exact hlast

/-- C1 witness: a concrete two-column table and interaction trace. -/
theorem wizard_index_invariant_witness :
    0 ≤ (runTrace ⟨["A", "B"], [[], []]⟩
          [(vStr "x", Action.next), (vStr "y", Action.back),
            (vStr "z", Action.jumpLast)]).wizard_idx
    ∧ (runTrace ⟨["A", "B"], [[], []]⟩
          [(vStr "x", Action.next), (vStr "y", Action.back),
            (vStr "z", Action.jumpLast)]).wizard_idx
        < ((runTrace ⟨["A", "B"], [[], []]⟩
              [(vStr "x", Action.next), (vStr "y", Action.back),
                (vStr "z", Action.jumpLast)]).df.header.length : Int) :=
  (wizard_index_invariant ⟨["A", "B"], [[], []]⟩
    [(vStr "x", Action.next), (vStr "y", Action.back), (vStr "z", Action.jumpLast)]
    (by decide)).1

/-- C2: the Save transition fires only at index `N - 1` — at any other index
the table is unchanged and the position keeps its value — and when it fires
the index resets to `0` and the draft row mapping becomes empty. -/
theorem save_fires_only_at_last (st : AppState) (v : Val) :
    (st.wizard_idx = (st.df.header.length : Int) - 1 →
      (runStep v Action.save st).wizard_idx = 0
      ∧ (runStep v Action.save st).temp_row = emptyDraft)
    ∧ (st.wizard_idx ≠ (st.df.header.length : Int) - 1 →
      (runStep v Action.save st).df = st.df
      ∧ (runStep v Action.save st).wizard_idx = st.wizard_idx) := by
  constructor
  · intro h
    simp only [runStep]
    rw [if_pos h]
    exact ⟨rfl, rfl⟩
  · intro h
    simp only [runStep]
    rw [if_neg h]
    exact ⟨rfl, rfl⟩

/-- C2 witness: saving at the last index of a two-column table resets the
position and empties the draft; saving elsewhere leaves the table alone. -/
theorem save_fires_only_at_last_witness :
    ((runStep (vStr "v") Action.save ⟨1, emptyDraft, ⟨["A", "B"], [[], []]⟩⟩).wizard_idx = 0
      ∧ (runStep (vStr "v") Action.save
          ⟨1, emptyDraft, ⟨["A", "B"], [[], []]⟩⟩).temp_row = emptyDraft)
    ∧ ((runStep (vStr "v") Action.save ⟨0, emptyDraft, ⟨["A", "B"], [[], []]⟩⟩).df
        = (⟨["A", "B"], [[], []]⟩ : Table)
      ∧ (runStep (vStr "v") Action.save
          ⟨0, emptyDraft, ⟨["A", "B"], [[], []]⟩⟩).wizard_idx = 0) :=
  ⟨(save_fires_only_at_last ⟨1, emptyDraft, ⟨["A", "B"], [[], []]⟩⟩ (vStr "v")).1
      (by decide),
    (save_fires_only_at_last ⟨0, emptyDraft, ⟨["A", "B"], [[], []]⟩⟩ (vStr "v")).2
      (by decide)⟩

/-- C9: entering a column not yet present in the draft seeds it with the
boolean `false` for boolean kind and the empty string otherwise, leaving all
other columns untouched; a column already present leaves the draft entirely
unchanged. -/
theorem draft_seeding (st : AppState) :
    (st.temp_row (currentCol st) = none →
      seedDraft st (currentCol st)
        = some (if kindsOf st.df (currentCol st) == "bool" then vBool false
            else vStr "")
      ∧ ∀ c : String, c ≠ currentCol st → seedDraft st c = st.temp_row c)
    ∧ (∀ x : Val, st.temp_row (currentCol st) = some x → seedDraft st = st.temp_row) := by
  constructor
  · intro h
    unfold seedDraft
    rw [h]
    constructor
    · show setDraft st.temp_row (currentCol st) _ (currentCol st) = _
      unfold setDraft
      rw [if_pos rfl]
    · intro c hc
      show setDraft st.temp_row (currentCol st) _ c = st.temp_row c
      unfold setDraft
      rw [if_neg hc]
  · intro x h
    unfold seedDraft
    rw [h]

/-- C9 witness: a fresh draft over a one-column text table is seeded with the
empty string at the current column. -/
theorem draft_seeding_witness :
    seedDraft ⟨0, emptyDraft, ⟨["A"], [[vStr "x"]]⟩⟩ "A" = some (vStr "") := by
  have h := (draft_seeding ⟨0, emptyDraft, ⟨["A"], [[vStr "x"]]⟩⟩).1 rfl
  exact h.1

theorem getD_zipWith_append (cols : List (List Val)) (row : List Val) (j : Nat)
    (hj : j < cols.length) (hlen : row.length = cols.length) :
    (List.zipWith (fun col v => col ++ [v]) cols row).getD j []
      = cols.getD j [] ++ [row.getD j vNull] := by
  have hj2 : j < row.length := by omega
  rw [List.getD_eq_getElem?_getD, List.getElem?_zipWith,
    List.getElem?_eq_getElem hj, List.getElem?_eq_getElem hj2,
    List.getD_eq_getElem?_getD cols, List.getElem?_eq_getElem hj,
    List.getD_eq_getElem?_getD row, List.getElem?_eq_getElem hj2]
  rfl

/-- C10: when Save fires, the new table is the old one with exactly one row
appended — each column receives the parse of its draft value by its kind —
while the column order and all pre-existing cells are unchanged. -/
theorem save_appends_row (st : AppState) (v : Val)
    (hidx : st.wizard_idx = (st.df.header.length : Int) - 1)
    (hlen : st.df.columns.length = st.df.header.length) :
    (runStep v Action.save st).df.header = st.df.header
    ∧ (runStep v Action.save st).df.columns.length = st.df.columns.length
    ∧ ∀ j : Nat, j < st.df.columns.length →
        (runStep v Action.save st).df.columns.getD j []
          = st.df.columns.getD j []
            ++ [parse_value ((draftAfter st v (st.df.header.getD j "")).getD (vStr ""))
                  (kindsOf st.df (st.df.header.getD j ""))] := by
  simp only [runStep]
  rw [if_pos hidx]
  have hrowlen : (finalRowOf st.df (draftAfter st v)).length = st.df.columns.length := by
    unfold finalRowOf
    rw [List.length_map, hlen]
  refine ⟨rfl, ?_, ?_⟩
  · show (List.zipWith (fun col v2 => col ++ [v2]) st.df.columns
        (finalRowOf st.df (draftAfter st v))).length = st.df.columns.length
    rw [List.length_zipWith, hrowlen]
    exact Nat.min_self _
  · intro j hj
    show (List.zipWith (fun col v2 => col ++ [v2]) st.df.columns
        (finalRowOf st.df (draftAfter st v))).getD j [] = _
    rw [getD_zipWith_append st.df.columns _ j hj hrowlen]
    have hjh : j < st.df.header.length := by omega
    have hrow : (finalRowOf st.df (draftAfter st v)).getD j vNull
        = parse_value ((draftAfter st v (st.df.header.getD j "")).getD (vStr ""))
            (kindsOf st.df (st.df.header.getD j "")) := by
      unfold finalRowOf
      rw [List.getD_eq_getElem?_getD, List.getElem?_map,
        List.getElem?_eq_getElem hjh,
        List.getD_eq_getElem?_getD st.df.header, List.getElem?_eq_getElem hjh]
      rfl
    rw [hrow]

/-- C10 witness: the spec's example — columns `[A, B]` with kinds
`{A: int, B: text}` and entries `A = "5"`, `B = "hello"` — appends the row
`{A: 5, B: "hello"}` and keeps the existing cells. -/
theorem save_appends_row_witness :
    (runStep (vStr "hello") Action.save
        ⟨1, setDraft emptyDraft "A" (vStr "5"), ⟨["A", "B"], [[vInt 1], [vStr "x"]]⟩⟩).df.columns.getD 0 []
      = [vInt 1, vInt 5]
    ∧ (runStep (vStr "hello") Action.save
        ⟨1, setDraft emptyDraft "A" (vStr "5"), ⟨["A", "B"], [[vInt 1], [vStr "x"]]⟩⟩).df.columns.getD 1 []
      = [vStr "x", vStr "hello"] := by
  have h := save_appends_row
    ⟨1, setDraft emptyDraft "A" (vStr "5"), ⟨["A", "B"], [[vInt 1], [vStr "x"]]⟩⟩
    (vStr "hello") (by decide) (by decide)
  exact ⟨(h.2.2 0 (by decide)).trans (by decide),
    (h.2.2 1 (by decide)).trans (by decide)⟩

end Rawand
